import Mathlib

/-!
Verification of the Archon database-access core: the backend selector
(`client_manager.get_database_mode`), the asyncpg pool manager
(`AsyncPGClient.get_pool` / `close` / `fetchrow`), and the vector-search
caller (`BaseSearchStrategy.vector_search`).  Each definition is a shallow
embedding of the corresponding Python function; stateful code is modelled
by explicit state passing, the asyncio interleaving of `get_pool` by a
step relation on a global state.
-/

namespace Archon

/-! ## Environment model

`os.getenv` returns the variable's string value or `None`; Python code
tests the result for truthiness (`not s` is true for both `None` and the
empty string).  An environment is a snapshot of the variables the core
reads. -/

structure Env where
  DATABASE_URL : Option String
  POSTGRES_HOST : Option String
  POSTGRES_PORT : Option String
  POSTGRES_USER : Option String
  POSTGRES_PASSWORD : Option String
  POSTGRES_DB : Option String
  POSTGRES_SSL : Option String
  SUPABASE_URL : Option String
  SUPABASE_SERVICE_KEY : Option String
deriving DecidableEq

/-- Python truthiness of an `os.getenv` result: `None` and `""` are falsy. -/
def truthy : Option String → Bool
  | none => false
  | some s => s ≠ ""

/-- `os.getenv(var, default)`: the value when set, the default otherwise. -/
def getenvD (v : Option String) (dflt : String) : String :=
  match v with
  | none => dflt
  | some s => s

/-! ## Backend selector (`client_manager.py`)

`get_database_mode` memoizes its result in the module-level global
`_database_mode`; we model it as a function of the cached value and the
environment, returning the selected mode together with the new cache, or
the `ValueError` message. -/

/-- The exact `ValueError` message raised when neither backend is configured. -/
def configRequiredMsg : String :=
  "Database configuration required. Set one of:\n" ++
  "  - DATABASE_URL: PostgreSQL connection string (preferred for K8s)\n" ++
  "  - SUPABASE_URL + SUPABASE_SERVICE_KEY: Supabase credentials (legacy)"

/-- `get_database_mode`, embedded over (cache state, environment).
Returns `(mode, new cache)` or the raised message. -/
def get_database_mode (cache : Option String) (env : Env) :
    Except String (String × Option String) :=
  match cache with
  | some m => Except.ok (m, some m)
  | none =>
    if truthy env.DATABASE_URL then
      Except.ok ("asyncpg", some "asyncpg")
    else if truthy env.SUPABASE_URL && truthy env.SUPABASE_SERVICE_KEY then
      Except.ok ("supabase", some "supabase")
    else
      Except.error configRequiredMsg

/-- `is_asyncpg_mode`, embedded over the same state. -/
def is_asyncpg_mode (cache : Option String) (env : Env) : Except String (Bool × Option String) :=
  match get_database_mode cache env with
  | Except.ok (m, c) => Except.ok (m = "asyncpg", c)
  | Except.error e => Except.error e

/-! ## Vector search caller (`base_search_strategy.py`) -/

/-- `SIMILARITY_THRESHOLD = 0.05`, as an exact rational. -/
def SIMILARITY_THRESHOLD : ℚ := 5 / 100

/-- A candidate row returned by the database-side matching function:
`similarity?` models `result.get("similarity", ...)` (`none` when the
column is absent), `payload` stands for the remaining columns. -/
structure SearchRow where
  similarity? : Option ℚ
  payload : List (String × String)
deriving DecidableEq

/-- `float(result.get("similarity", 0.0))`: the score, defaulting to 0. -/
def rowSimilarity (r : SearchRow) : ℚ :=
  match r.similarity? with
  | none => 0
  | some q => q

/-- The filtering loop of `vector_search`: start from an empty list and
append each result whose similarity is `>= SIMILARITY_THRESHOLD`. -/
def thresholdPass (results : List SearchRow) : List SearchRow :=
  results.foldl
    (fun acc r => if SIMILARITY_THRESHOLD ≤ rowSimilarity r then acc ++ [r] else acc) []

/-- `vector_search`: the backend call either produces candidate rows or
raises; a raise is caught (`except Exception`) and yields `[]`, success
yields the threshold-filtered rows in backend order. -/
def vector_search (backendOutcome : Except String (List SearchRow)) : List SearchRow :=
  match backendOutcome with
  | Except.error _ => []
  | Except.ok results => thresholdPass results

/-- JSON-like values carried by `filter_metadata`. -/
inductive JVal where
  | s (v : String)
  | n (v : Int)
  | b (v : Bool)
  | null
deriving DecidableEq

/-- A metadata dictionary, as an ordered key/value list (Python dict keys
are unique; `lookup` models `d[k]` / `k in d`). -/
def Meta := List (String × JVal)

instance : DecidableEq Meta := inferInstanceAs (DecidableEq (List (String × JVal)))

/-- Filter parsing in `_vector_search_asyncpg`: returns the
`source_filter` argument (`$4`) and the JSON `filter` object (`$3`). -/
def parseFilterAsyncpg (filter_metadata : Option Meta) : Option JVal × Meta :=
  match filter_metadata with
  | none => (none, [])
  | some m =>
    if m = [] then (none, [])
    else
      match m.lookup "source" with
      | some v => (some v, [])
      | none => (none, m)

/-- Filter parsing in `_vector_search_supabase`: returns the
`source_filter` RPC parameter (absent = `none`) and the `filter` RPC
parameter. -/
def parseFilterSupabase (filter_metadata : Option Meta) : Option JVal × Meta :=
  match filter_metadata with
  | none => (none, [])
  | some m =>
    if m = [] then (none, [])
    else
      match m.lookup "source" with
      | some v => (some v, [])
      | none => (none, m)

/-! ## Pool manager (`asyncpg_client.py`)

`AsyncPGClient` keeps one class-level pool handle.  We model pool objects
by allocation numbers: `counter` counts the pools constructed so far in
the process, and a freshly constructed pool gets handle `counter` (so
distinct constructions yield distinct handles). -/

structure PoolState where
  pool : Option ℕ
  counter : ℕ
deriving DecidableEq

/-- The error surface of `get_pool`: `ValueError` ("not configured")
versus `ConnectionError` ("cannot connect"). -/
inductive PoolError where
  | valueError (msg : String)
  | connectionError (msg : String)
deriving DecidableEq

/-- The exact `ValueError` message of `get_pool`. -/
def notConfiguredMsg : String :=
  "Database connection not configured. " ++
  "Set DATABASE_URL or POSTGRES_* environment variables."

/-- The arguments `get_pool` hands to `asyncpg.create_pool`: either the
discrete `POSTGRES_*` fields or the `DATABASE_URL` connection string,
plus the pool sizing options. -/
inductive PoolSource where
  | discrete (host port user password database ssl : String)
  | url (databaseUrl : String)
deriving DecidableEq

structure CreatePoolCall where
  source : PoolSource
  min_size : ℕ
  max_size : ℕ
  command_timeout : ℕ
  statement_cache_size : ℕ
deriving DecidableEq

/-- The `create_pool` invocation `get_pool` builds from the environment,
mirroring the `if postgres_host:` branch (defaults applied as in the
source). -/
def createPoolCall (env : Env) : CreatePoolCall :=
  if truthy env.POSTGRES_HOST then
    { source := PoolSource.discrete
        (getenvD env.POSTGRES_HOST "")
        (getenvD env.POSTGRES_PORT "5432")
        (getenvD env.POSTGRES_USER "postgres")
        (getenvD env.POSTGRES_PASSWORD "")
        (getenvD env.POSTGRES_DB "postgres")
        (getenvD env.POSTGRES_SSL "require"),
      min_size := 2, max_size := 10, command_timeout := 60, statement_cache_size := 0 }
  else
    { source := PoolSource.url (getenvD env.DATABASE_URL ""),
      min_size := 2, max_size := 10, command_timeout := 60, statement_cache_size := 0 }

/-- `get_pool`, embedded sequentially (the concurrent interleaving is
modelled separately below).  `createOk` is the outcome of the underlying
`asyncpg.create_pool` call.  On success returns the pool handle, the new
state, and the `create_pool` invocation made (`none` when the existing
pool was returned). -/
def get_pool (s : PoolState) (env : Env) (createOk : Bool) :
    Except PoolError (ℕ × PoolState × Option CreatePoolCall) :=
  match s.pool with
  | some p => Except.ok (p, s, none)
  | none =>
    if ¬ truthy env.DATABASE_URL ∧ ¬ truthy env.POSTGRES_HOST then
      Except.error (PoolError.valueError notConfiguredMsg)
    else if createOk then
      Except.ok (s.counter, ⟨some s.counter, s.counter + 1⟩, some (createPoolCall env))
    else
      Except.error (PoolError.connectionError "Unable to connect to database")

/-- `close`: `if cls._pool:` then close it and reset the handle, else
do nothing.  Total — never raises. -/
def close (s : PoolState) : PoolState :=
  match s.pool with
  | some _ => ⟨none, s.counter⟩
  | none => s

/-- Well-formedness of the allocation model: any live handle was
allocated by a past construction. -/
def PoolState.WF (s : PoolState) : Prop :=
  ∀ h, s.pool = some h → h < s.counter

/-! ### `fetchrow`

`conn.fetchrow` yields the first matching row or `None`; a row is an
ordered column-name/value mapping.  The client then evaluates
`dict(row) if row else None` — note this tests the *truthiness* of the
row (an `asyncpg.Record` is falsy when it has zero columns, like any
sized container), not `row is not None`. -/

/-- A database row: an ordered column-name/value mapping. -/
def DBRow := List (String × JVal)

instance : DecidableEq DBRow := inferInstanceAs (DecidableEq (List (String × JVal)))

/-- `AsyncPGClient.fetchrow`, as a function of the rows the statement
matches: `conn.fetchrow` gives the first row (or `None` when there is
none), then `dict(row) if row else None`. -/
def fetchrow (matchedRows : List DBRow) : Option DBRow :=
  match matchedRows.head? with
  | none => none
  | some row => if row = [] then none else some row

/-! ### Concurrent first access (`get_pool` under asyncio)

`n` tasks each run `get_pool` on a configured environment.  asyncio is
cooperative: a task runs atomically between `await` points.  The await
points of `get_pool` are: acquiring `cls._lock`, the
`asyncpg.create_pool` call, and releasing the lock on exit of
`async with`; the final `return cls._pool` re-reads the handle.  Each
task's program counter: -/

inductive TPC where
  /-- before the outer `if cls._pool is None` check -/
  | start
  /-- pool was unset; awaiting `cls._lock` -/
  | waitLock
  /-- holds the lock, before the inner re-check -/
  | locked
  /-- holds the lock, awaiting `asyncpg.create_pool` -/
  | building
  /-- pool assigned, about to exit `async with` (release the lock) -/
  | postBuild
  /-- lock released, about to execute `return cls._pool` -/
  | readRet
  /-- returned with pool handle `v` -/
  | done (v : ℕ)
deriving DecidableEq

/-- Global state: the class-level pool handle, the count of pools
constructed so far (fresh handles are numbered by it), the holder of
`cls._lock`, and each task's program counter. -/
structure CCState (n : ℕ) where
  pool : Option ℕ
  counter : ℕ
  lock : Option (Fin n)
  tasks : Fin n → TPC

/-- One atomic step of one task, in a configured environment where
`asyncpg.create_pool` succeeds. -/
inductive Step (n : ℕ) : CCState n → CCState n → Prop where
  /-- outer check sees a pool: fall through to `return cls._pool`. -/
  | startHit {s : CCState n} (i : Fin n) {p : ℕ}
      (hi : s.tasks i = TPC.start) (hp : s.pool = some p) :
      Step n s { s with tasks := Function.update s.tasks i (TPC.done p) }
  /-- outer check sees no pool: go wait for the lock. -/
  | startMiss {s : CCState n} (i : Fin n)
      (hi : s.tasks i = TPC.start) (hp : s.pool = none) :
      Step n s { s with tasks := Function.update s.tasks i TPC.waitLock }
  /-- acquire the free lock. -/
  | acquire {s : CCState n} (i : Fin n)
      (hi : s.tasks i = TPC.waitLock) (hl : s.lock = none) :
      Step n s { s with lock := some i, tasks := Function.update s.tasks i TPC.locked }
  /-- inner re-check sees a pool: skip creation, release the lock. -/
  | lockedHit {s : CCState n} (i : Fin n) {p : ℕ}
      (hi : s.tasks i = TPC.locked) (hp : s.pool = some p) :
      Step n s { s with lock := none, tasks := Function.update s.tasks i TPC.readRet }
  /-- inner re-check sees no pool: start `asyncpg.create_pool`. -/
  | lockedMiss {s : CCState n} (i : Fin n)
      (hi : s.tasks i = TPC.locked) (hp : s.pool = none) :
      Step n s { s with tasks := Function.update s.tasks i TPC.building }
  /-- `create_pool` completes: assign `cls._pool` a fresh handle. -/
  | build {s : CCState n} (i : Fin n)
      (hi : s.tasks i = TPC.building) :
      Step n s { s with pool := some s.counter, counter := s.counter + 1,
                        tasks := Function.update s.tasks i TPC.postBuild }
  /-- exit `async with`: release the lock. -/
  | release {s : CCState n} (i : Fin n)
      (hi : s.tasks i = TPC.postBuild) :
      Step n s { s with lock := none, tasks := Function.update s.tasks i TPC.readRet }
  /-- `return cls._pool`. -/
  | ret {s : CCState n} (i : Fin n) {p : ℕ}
      (hi : s.tasks i = TPC.readRet) (hp : s.pool = some p) :
      Step n s { s with tasks := Function.update s.tasks i (TPC.done p) }

/-- First-time access: no pool, free lock, every task about to call. -/
def initCC (n : ℕ) : CCState n := ⟨none, 0, none, fun _ => TPC.start⟩

/-- States reachable by interleaving the `n` tasks from the initial state. -/
inductive Reach (n : ℕ) : CCState n → Prop where
  | init : Reach n (initCC n)
  | step {s s' : CCState n} : Reach n s → Step n s s' → Reach n s'

/-- Inductive invariant of the double-checked locking protocol. -/
structure CCInv (n : ℕ) (s : CCState n) : Prop where
  pool_zero : ∀ p, s.pool = some p → p = 0 ∧ s.counter = 1
  noPool_counter : s.pool = none → s.counter = 0
  locked_lock : ∀ j, s.tasks j = TPC.locked → s.lock = some j
  building_inv : ∀ j, s.tasks j = TPC.building → s.lock = some j ∧ s.pool = none
  postBuild_inv : ∀ j, s.tasks j = TPC.postBuild → s.lock = some j ∧ s.pool = some 0
  readRet_pool : ∀ j, s.tasks j = TPC.readRet → s.pool = some 0
  done_inv : ∀ j v, s.tasks j = TPC.done v → v = 0 ∧ s.pool = some 0

theorem ccInv_init (n : ℕ) : CCInv n (initCC n) := by
  refine ⟨?_, ?_, ?_, ?_, ?_, ?_, ?_⟩ <;> intro j <;> simp [initCC]

/-- Case split for a task-array update: the inspected task is the updated
one, or it is unchanged. -/
theorem update_eq_iff {n : ℕ} {f : Fin n → TPC} {i j : Fin n} {x t : TPC}
    (h : Function.update f i x j = t) : (j = i ∧ x = t) ∨ (j ≠ i ∧ f j = t) := by
  by_cases hj : j = i
  · subst hj
    exact Or.inl ⟨rfl, by rwa [Function.update_same] at h⟩
  · exact Or.inr ⟨hj, by rwa [Function.update_noteq hj] at h⟩

theorem ccInv_step {n : ℕ} {s s' : CCState n}
    (hs : CCInv n s) (hstep : Step n s s') : CCInv n s' := by
  obtain ⟨pz, nc, lk, bd, pb, rr, dn⟩ := hs
  cases hstep with
  | startHit i hi hp =>
    refine ⟨pz, nc, ?_, ?_, ?_, ?_, ?_⟩
    · intro j h
      rcases update_eq_iff h with ⟨rfl, hx⟩ | ⟨_, hj⟩
      · exact TPC.noConfusion hx
      · exact lk j hj
    · intro j h
      rcases update_eq_iff h with ⟨rfl, hx⟩ | ⟨_, hj⟩
      · exact TPC.noConfusion hx
      · exact bd j hj
    · intro j h
      rcases update_eq_iff h with ⟨rfl, hx⟩ | ⟨_, hj⟩
      · exact TPC.noConfusion hx
      · exact pb j hj
    · intro j h
      rcases update_eq_iff h with ⟨rfl, hx⟩ | ⟨_, hj⟩
      · exact TPC.noConfusion hx
      · exact rr j hj
    · intro j v h
      rcases update_eq_iff h with ⟨rfl, hx⟩ | ⟨_, hj⟩
      · injection hx with hpv
        subst hpv
        exact ⟨(pz _ hp).1, (pz _ hp).1 ▸ hp⟩
      · exact dn j v hj
  | startMiss i hi hp =>
    refine ⟨pz, nc, ?_, ?_, ?_, ?_, ?_⟩
    · intro j h
      rcases update_eq_iff h with ⟨rfl, hx⟩ | ⟨_, hj⟩
      · exact TPC.noConfusion hx
      · exact lk j hj
    · intro j h
      rcases update_eq_iff h with ⟨rfl, hx⟩ | ⟨_, hj⟩
      · exact TPC.noConfusion hx
      · exact bd j hj
    · intro j h
      rcases update_eq_iff h with ⟨rfl, hx⟩ | ⟨_, hj⟩
      · exact TPC.noConfusion hx
      · exact pb j hj
    · intro j h
      rcases update_eq_iff h with ⟨rfl, hx⟩ | ⟨_, hj⟩
      · exact TPC.noConfusion hx
      · exact rr j hj
    · intro j v h
      rcases update_eq_iff h with ⟨rfl, hx⟩ | ⟨_, hj⟩
      · exact TPC.noConfusion hx
      · exact dn j v hj
  | acquire i hi hl =>
    refine ⟨pz, nc, ?_, ?_, ?_, ?_, ?_⟩
    · intro j h
      rcases update_eq_iff h with ⟨rfl, _⟩ | ⟨_, hj⟩
      · rfl
      · have hcontra := lk j hj
        rw [hl] at hcontra
        exact Option.noConfusion hcontra
    · intro j h
      rcases update_eq_iff h with ⟨rfl, hx⟩ | ⟨_, hj⟩
      · exact TPC.noConfusion hx
      · have hcontra := (bd j hj).1
        rw [hl] at hcontra
        exact Option.noConfusion hcontra
    · intro j h
      rcases update_eq_iff h with ⟨rfl, hx⟩ | ⟨_, hj⟩
      · exact TPC.noConfusion hx
      · have hcontra := (pb j hj).1
        rw [hl] at hcontra
        exact Option.noConfusion hcontra
    · intro j h
      rcases update_eq_iff h with ⟨rfl, hx⟩ | ⟨_, hj⟩
      · exact TPC.noConfusion hx
      · exact rr j hj
    · intro j v h
      rcases update_eq_iff h with ⟨rfl, hx⟩ | ⟨_, hj⟩
      · exact TPC.noConfusion hx
      · exact dn j v hj
  | lockedHit i hi hp =>
    refine ⟨pz, nc, ?_, ?_, ?_, ?_, ?_⟩
    · intro j h
      rcases update_eq_iff h with ⟨rfl, hx⟩ | ⟨hne, hj⟩
      · exact TPC.noConfusion hx
      · have h1 := lk j hj
        have h2 := lk i hi
        rw [h1] at h2
        injection h2 with h3
        exact absurd h3 hne
    · intro j h
      rcases update_eq_iff h with ⟨rfl, hx⟩ | ⟨hne, hj⟩
      · exact TPC.noConfusion hx
      · have h1 := (bd j hj).1
        have h2 := lk i hi
        rw [h1] at h2
        injection h2 with h3
        exact absurd h3 hne
    · intro j h
      rcases update_eq_iff h with ⟨rfl, hx⟩ | ⟨hne, hj⟩
      · exact TPC.noConfusion hx
      · have h1 := (pb j hj).1
        have h2 := lk i hi
        rw [h1] at h2
        injection h2 with h3
        exact absurd h3 hne
    · intro j h
      rcases update_eq_iff h with ⟨rfl, _⟩ | ⟨_, hj⟩
      · exact (pz _ hp).1 ▸ hp
      · exact rr j hj
    · intro j v h
      rcases update_eq_iff h with ⟨rfl, hx⟩ | ⟨_, hj⟩
      · exact TPC.noConfusion hx
      · exact dn j v hj
  | lockedMiss i hi hp =>
    refine ⟨pz, nc, ?_, ?_, ?_, ?_, ?_⟩
    · intro j h
      rcases update_eq_iff h with ⟨rfl, hx⟩ | ⟨_, hj⟩
      · exact TPC.noConfusion hx
      · exact lk j hj
    · intro j h
      rcases update_eq_iff h with ⟨rfl, _⟩ | ⟨_, hj⟩
      · exact ⟨lk j hi, hp⟩
      · exact bd j hj
    · intro j h
      rcases update_eq_iff h with ⟨rfl, hx⟩ | ⟨_, hj⟩
      · exact TPC.noConfusion hx
      · exact pb j hj
    · intro j h
      rcases update_eq_iff h with ⟨rfl, hx⟩ | ⟨_, hj⟩
      · exact TPC.noConfusion hx
      · exact rr j hj
    · intro j v h
      rcases update_eq_iff h with ⟨rfl, hx⟩ | ⟨_, hj⟩
      · exact TPC.noConfusion hx
      · exact dn j v hj
  | build i hi =>
    have hli := (bd i hi).1
    have hpn := (bd i hi).2
    have hc0 := nc hpn
    refine ⟨?_, ?_, ?_, ?_, ?_, ?_, ?_⟩
    · intro q h
      injection h with hq
      exact ⟨hq ▸ hc0, by rw [hc0]⟩
    · intro h
      exact Option.noConfusion h
    · intro j h
      rcases update_eq_iff h with ⟨rfl, hx⟩ | ⟨_, hj⟩
      · exact TPC.noConfusion hx
      · exact lk j hj
    · intro j h
      rcases update_eq_iff h with ⟨rfl, hx⟩ | ⟨hne, hj⟩
      · exact TPC.noConfusion hx
      · have h1 := (bd j hj).1
        rw [hli] at h1
        injection h1 with h3
        exact absurd h3.symm hne
    · intro j h
      rcases update_eq_iff h with ⟨rfl, _⟩ | ⟨_, hj⟩
      · exact ⟨hli, by rw [hc0]⟩
      · have h1 := (pb j hj).2
        rw [hpn] at h1
        exact Option.noConfusion h1
    · intro j h
      rcases update_eq_iff h with ⟨rfl, hx⟩ | ⟨_, hj⟩
      · exact TPC.noConfusion hx
      · have h1 := rr j hj
        rw [hpn] at h1
        exact Option.noConfusion h1
    · intro j v h
      rcases update_eq_iff h with ⟨rfl, hx⟩ | ⟨_, hj⟩
      · exact TPC.noConfusion hx
      · have h1 := (dn j v hj).2
        rw [hpn] at h1
        exact Option.noConfusion h1
  | release i hi =>
    have hli := (pb i hi).1
    have hp0 := (pb i hi).2
    refine ⟨pz, nc, ?_, ?_, ?_, ?_, ?_⟩
    · intro j h
      rcases update_eq_iff h with ⟨rfl, hx⟩ | ⟨hne, hj⟩
      · exact TPC.noConfusion hx
      · have h1 := lk j hj
        rw [hli] at h1
        injection h1 with h3
        exact absurd h3.symm hne
    · intro j h
      rcases update_eq_iff h with ⟨rfl, hx⟩ | ⟨hne, hj⟩
      · exact TPC.noConfusion hx
      · have h1 := (bd j hj).1
        rw [hli] at h1
        injection h1 with h3
        exact absurd h3.symm hne
    · intro j h
      rcases update_eq_iff h with ⟨rfl, hx⟩ | ⟨hne, hj⟩
      · exact TPC.noConfusion hx
      · have h1 := (pb j hj).1
        rw [hli] at h1
        injection h1 with h3
        exact absurd h3.symm hne
    · intro j h
      rcases update_eq_iff h with ⟨rfl, _⟩ | ⟨_, hj⟩
      · exact hp0
      · exact rr j hj
    · intro j v h
      rcases update_eq_iff h with ⟨rfl, hx⟩ | ⟨_, hj⟩
      · exact TPC.noConfusion hx
      · exact dn j v hj
  | ret i hi hp =>
    refine ⟨pz, nc, ?_, ?_, ?_, ?_, ?_⟩
    · intro j h
      rcases update_eq_iff h with ⟨rfl, hx⟩ | ⟨_, hj⟩
      · exact TPC.noConfusion hx
      · exact lk j hj
    · intro j h
      rcases update_eq_iff h with ⟨rfl, hx⟩ | ⟨_, hj⟩
      · exact TPC.noConfusion hx
      · exact bd j hj
    · intro j h
      rcases update_eq_iff h with ⟨rfl, hx⟩ | ⟨_, hj⟩
      · exact TPC.noConfusion hx
      · exact pb j hj
    · intro j h
      rcases update_eq_iff h with ⟨rfl, hx⟩ | ⟨_, hj⟩
      · exact TPC.noConfusion hx
      · exact rr j hj
    · intro j v h
      rcases update_eq_iff h with ⟨rfl, hx⟩ | ⟨_, hj⟩
      · injection hx with hpv
        subst hpv
        exact ⟨(pz _ hp).1, (pz _ hp).1 ▸ hp⟩
      · exact dn j v hj

theorem ccInv_reach {n : ℕ} {s : CCState n} (h : Reach n s) : CCInv n s := by
  induction h with
  | init => exact ccInv_init n
  | step _ hstep ih => exact ccInv_step ih hstep

/-! ## Example environments -/

def envEmpty : Env := ⟨none, none, none, none, none, none, none, none, none⟩

def envUrl : Env :=
  ⟨some "postgresql://user:pw@db:5432/archon", none, none, none, none, none, none, none, none⟩

def envHostAndUrl : Env :=
  ⟨some "postgresql://user:pw@db:5432/archon", some "db.internal", some "6543",
   some "archon", some "s3cret", some "archon", some "disable", none, none⟩

def envSupabase : Env :=
  ⟨none, none, none, none, none, none, none,
   some "https://proj.supabase.co", some "service-key"⟩

/-! ## Claim theorems -/

/-- Claim C1: under any interleaving of `n` concurrent first-time calls
to `AsyncPGClient.get_pool` (each task stepping atomically between
`await` points), every reachable state has constructed at most one pool;
every completed call returned the pool handle held in the class-level
slot; and any two completed calls returned the same handle. -/
theorem get_pool_singleton {n : ℕ} {s : CCState n} (h : Reach n s) :
    s.counter ≤ 1 ∧
    (∀ i v, s.tasks i = TPC.done v → s.pool = some v) ∧
    (∀ i j v w, s.tasks i = TPC.done v → s.tasks j = TPC.done w → v = w) := by
  have hinv := ccInv_reach h
  refine ⟨?_, ?_, ?_⟩
  · cases hp : s.pool with
    | none => rw [hinv.noPool_counter hp]; exact Nat.zero_le 1
    | some p => rw [(hinv.pool_zero p hp).2]
  · intro i v hv
    have hd := hinv.done_inv i v hv
    rw [hd.1]
    exact hd.2
  · intro i j v w hv hw
    rw [(hinv.done_inv i v hv).1, (hinv.done_inv j w hw).1]

/-- Witness for C1: the initial state of two concurrent callers is
reachable, so the theorem applies to it. -/
theorem get_pool_singleton_witness :
    (initCC 2).counter ≤ 1 ∧
    (∀ i v, (initCC 2).tasks i = TPC.done v → (initCC 2).pool = some v) ∧
    (∀ i j v w, (initCC 2).tasks i = TPC.done v → (initCC 2).tasks j = TPC.done w → v = w) :=
  get_pool_singleton Reach.init

/-- The filtering loop appends exactly the rows passing the threshold,
in order. -/
theorem thresholdPass_eq_filter (results : List SearchRow) :
    thresholdPass results
      = results.filter (fun r => decide (SIMILARITY_THRESHOLD ≤ rowSimilarity r)) := by
  have hgo : ∀ (rs : List SearchRow) (acc : List SearchRow),
      rs.foldl
        (fun acc r => if SIMILARITY_THRESHOLD ≤ rowSimilarity r then acc ++ [r] else acc) acc
        = acc ++ rs.filter (fun r => decide (SIMILARITY_THRESHOLD ≤ rowSimilarity r)) := by
    intro rs
    induction rs with
    | nil => intro acc; simp
    | cons r rs ih =>
      intro acc
      by_cases hr : SIMILARITY_THRESHOLD ≤ rowSimilarity r
      · simp [List.filter_cons, hr, ih]
      · simp [List.filter_cons, hr, ih]
  simpa [thresholdPass] using hgo results []

/-- Claim C2: on a successful backend call, `vector_search` returns
exactly the candidates whose similarity is at least the 0.05 threshold,
in the backend's order (the result is the order-preserving filter of the
candidate list, hence a sublist — no re-sorting). -/
theorem vector_search_threshold (results : List SearchRow) :
    vector_search (Except.ok results)
      = results.filter (fun r => decide (SIMILARITY_THRESHOLD ≤ rowSimilarity r)) ∧
    List.Sublist (vector_search (Except.ok results)) results := by
  constructor
  · exact thresholdPass_eq_filter results
  · rw [show vector_search (Except.ok results) = thresholdPass results from rfl,
        thresholdPass_eq_filter results]
    exact List.filter_sublist results

/-- Claim C3: a failure of the underlying database call never propagates
out of `vector_search`: every raised error is absorbed and the caller
receives the empty sequence. -/
theorem vector_search_absorbs_failure (e : String) :
    vector_search (Except.error e) = [] := rfl

/-- Reduction of `get_pool` on a first-time call (no pool in the slot). -/
theorem get_pool_none (c : ℕ) (env : Env) (createOk : Bool) :
    get_pool ⟨none, c⟩ env createOk =
      if ¬ truthy env.DATABASE_URL ∧ ¬ truthy env.POSTGRES_HOST then
        Except.error (PoolError.valueError notConfiguredMsg)
      else if createOk then
        Except.ok (c, ⟨some c, c + 1⟩, some (createPoolCall env))
      else
        Except.error (PoolError.connectionError "Unable to connect to database") := rfl

/-- Claim C4: on a first-time call, `get_pool` raises the `ValueError`
("not configured") exactly when neither `DATABASE_URL` nor
`POSTGRES_HOST` is set to a non-empty value; when configuration is
present but `asyncpg.create_pool` fails, it raises the distinct
`ConnectionError` ("cannot connect"). -/
theorem get_pool_error_taxonomy (c : ℕ) (env : Env) (createOk : Bool) :
    ((∃ msg, get_pool ⟨none, c⟩ env createOk = Except.error (PoolError.valueError msg)) ↔
      (¬ truthy env.DATABASE_URL ∧ ¬ truthy env.POSTGRES_HOST)) ∧
    ((truthy env.DATABASE_URL = true ∨ truthy env.POSTGRES_HOST = true) → createOk = false →
      ∃ msg, get_pool ⟨none, c⟩ env createOk = Except.error (PoolError.connectionError msg)) := by
  rw [get_pool_none]
  by_cases hcfg : ¬ truthy env.DATABASE_URL ∧ ¬ truthy env.POSTGRES_HOST
  · rw [if_pos hcfg]
    refine ⟨⟨fun _ => hcfg, fun _ => ⟨notConfiguredMsg, rfl⟩⟩, ?_⟩
    intro hor _
    rcases hor with h | h
    · exact absurd h hcfg.1
    · exact absurd h hcfg.2
  · rw [if_neg hcfg]
    cases createOk with
    | true =>
      rw [if_pos rfl]
      refine ⟨⟨?_, fun h => absurd h hcfg⟩, ?_⟩
      · rintro ⟨msg, hmsg⟩
        exact Except.noConfusion hmsg
      · intro _ hfalse
        exact Bool.noConfusion hfalse
    | false =>
      rw [if_neg Bool.false_ne_true]
      refine ⟨⟨?_, fun h => absurd h hcfg⟩, ?_⟩
      · rintro ⟨msg, hmsg⟩
        injection hmsg with h2
        exact PoolError.noConfusion h2
      · intro _ _
        exact ⟨"Unable to connect to database", rfl⟩

/-- Witness for C4: with nothing configured, the first call raises the
`ValueError`; its hypotheses are discharged at a concrete input. -/
theorem get_pool_error_taxonomy_witness :
    get_pool ⟨none, 0⟩ envEmpty false = Except.error (PoolError.valueError notConfiguredMsg) ∧
    (∃ msg, get_pool ⟨none, 0⟩ envUrl false = Except.error (PoolError.connectionError msg)) := by
  constructor
  · rcases ((get_pool_error_taxonomy 0 envEmpty false).1.mpr
      (by constructor <;> intro h <;> exact Bool.noConfusion h)) with ⟨msg, hmsg⟩
    rw [get_pool_none] at hmsg ⊢
    rw [if_pos (by constructor <;> intro h <;> exact Bool.noConfusion h)]
  · exact (get_pool_error_taxonomy 0 envUrl false).2 (Or.inl rfl) rfl

/-- Claim C5: on a first call (empty cache) `get_database_mode` selects
`asyncpg` when `DATABASE_URL` is set non-empty; otherwise `supabase`
when both `SUPABASE_URL` and `SUPABASE_SERVICE_KEY` are set non-empty;
otherwise it raises a configuration error whose message names both
configuration options. -/
theorem get_database_mode_priority (env : Env) :
    (truthy env.DATABASE_URL = true →
      get_database_mode none env = Except.ok ("asyncpg", some "asyncpg")) ∧
    (truthy env.DATABASE_URL = false → truthy env.SUPABASE_URL = true →
      truthy env.SUPABASE_SERVICE_KEY = true →
      get_database_mode none env = Except.ok ("supabase", some "supabase")) ∧
    (truthy env.DATABASE_URL = false →
      (truthy env.SUPABASE_URL && truthy env.SUPABASE_SERVICE_KEY) = false →
      get_database_mode none env = Except.error configRequiredMsg) ∧
    (∃ a b, configRequiredMsg = a ++ "DATABASE_URL" ++ b) ∧
    (∃ a b, configRequiredMsg = a ++ "SUPABASE_URL + SUPABASE_SERVICE_KEY" ++ b) := by
  refine ⟨?_, ?_, ?_, ?_, ?_⟩
  · intro h
    simp [get_database_mode, h]
  · intro h1 h2 h3
    simp [get_database_mode, h1, h2, h3]
  · intro h1 h2
    simp [get_database_mode, h1, h2]
  · exact ⟨"Database configuration required. Set one of:\n  - ",
      ": PostgreSQL connection string (preferred for K8s)\n" ++
      "  - SUPABASE_URL + SUPABASE_SERVICE_KEY: Supabase credentials (legacy)", rfl⟩
  · exact ⟨"Database configuration required. Set one of:\n" ++
      "  - DATABASE_URL: PostgreSQL connection string (preferred for K8s)\n  - ",
      ": Supabase credentials (legacy)", rfl⟩

/-- Witness for C5: the pooled mode wins when `DATABASE_URL` is set. -/
theorem get_database_mode_priority_witness :
    truthy envUrl.DATABASE_URL = true ∧
    get_database_mode none envUrl = Except.ok ("asyncpg", some "asyncpg") :=
  ⟨rfl, (get_database_mode_priority envUrl).1 rfl⟩

/-- Claim C6: once a mode has been resolved (the module-level cache is
set), every later call returns the cached mode, identically for any two
environments — configuration is not re-checked. -/
theorem get_database_mode_memoized (m : String) (env env2 : Env) :
    get_database_mode (some m) env = Except.ok (m, some m) ∧
    get_database_mode (some m) env = get_database_mode (some m) env2 :=
  ⟨rfl, rfl⟩

/-- Claim C7: when `get_pool` creates the pool, it builds the
`asyncpg.create_pool` call from the discrete `POSTGRES_*` fields
whenever `POSTGRES_HOST` is set non-empty (even when `DATABASE_URL` is
also set), and from the connection string otherwise; in both cases with
`min_size = 2`, `max_size = 10`, `command_timeout = 60` and
`statement_cache_size = 0`. -/
theorem get_pool_creation_params (c : ℕ) (env : Env)
    (hcfg : truthy env.DATABASE_URL = true ∨ truthy env.POSTGRES_HOST = true) :
    get_pool ⟨none, c⟩ env true
      = Except.ok (c, ⟨some c, c + 1⟩, some (createPoolCall env)) ∧
    (createPoolCall env).min_size = 2 ∧
    (createPoolCall env).max_size = 10 ∧
    (createPoolCall env).command_timeout = 60 ∧
    (createPoolCall env).statement_cache_size = 0 ∧
    (truthy env.POSTGRES_HOST = true →
      (createPoolCall env).source = PoolSource.discrete
        (getenvD env.POSTGRES_HOST "") (getenvD env.POSTGRES_PORT "5432")
        (getenvD env.POSTGRES_USER "postgres") (getenvD env.POSTGRES_PASSWORD "")
        (getenvD env.POSTGRES_DB "postgres") (getenvD env.POSTGRES_SSL "require")) ∧
    (truthy env.POSTGRES_HOST = false →
      (createPoolCall env).source = PoolSource.url (getenvD env.DATABASE_URL "")) := by
  refine ⟨?_, ?_, ?_, ?_, ?_, ?_, ?_⟩
  · rw [get_pool_none,
      if_neg (fun h => hcfg.elim (fun hc => h.1 hc) (fun hc => h.2 hc)), if_pos rfl]
  · by_cases hh : truthy env.POSTGRES_HOST <;> simp [createPoolCall, hh]
  · by_cases hh : truthy env.POSTGRES_HOST <;> simp [createPoolCall, hh]
  · by_cases hh : truthy env.POSTGRES_HOST <;> simp [createPoolCall, hh]
  · by_cases hh : truthy env.POSTGRES_HOST <;> simp [createPoolCall, hh]
  · intro hh
    simp [createPoolCall, hh]
  · intro hh
    simp [createPoolCall, hh]

/-- Witness for C7: with both `DATABASE_URL` and the discrete
`POSTGRES_*` variables set, the discrete fields win. -/
theorem get_pool_creation_params_witness :
    (truthy envHostAndUrl.DATABASE_URL = true ∨ truthy envHostAndUrl.POSTGRES_HOST = true) ∧
    (createPoolCall envHostAndUrl).source
      = PoolSource.discrete "db.internal" "6543" "archon" "s3cret" "archon" "disable" ∧
    (createPoolCall envHostAndUrl).min_size = 2 ∧
    get_pool ⟨none, 0⟩ envHostAndUrl true
      = Except.ok (0, ⟨some 0, 1⟩, some (createPoolCall envHostAndUrl)) := by
  refine ⟨Or.inl rfl, ?_, ?_, ?_⟩
  · rw [(get_pool_creation_params 0 envHostAndUrl (Or.inl rfl)).2.2.2.2.2.1 rfl]
    rfl
  · exact (get_pool_creation_params 0 envHostAndUrl (Or.inl rfl)).2.1
  · exact (get_pool_creation_params 0 envHostAndUrl (Or.inl rfl)).1

/-- Claim C8: `close` is total (never raises): with no pool it is a
no-op, with a pool it resets the handle to unset; it is idempotent; and
a `get_pool` after `close` only ever constructs a fresh pool with a new
handle — it cannot return the stale one. -/
theorem close_contract (s : PoolState) (env : Env) (createOk : Bool) (hwf : s.WF) :
    (close s).pool = none ∧
    close (close s) = close s ∧
    (s.pool = none → close s = s) ∧
    (∀ h, s.pool = some h →
      ∀ v s2 call, get_pool (close s) env createOk = Except.ok (v, s2, call) →
        v ≠ h ∧ call = some (createPoolCall env)) := by
  refine ⟨?_, ?_, ?_, ?_⟩
  · cases hp : s.pool <;> simp [close, hp]
  · cases hp : s.pool <;> simp [close, hp]
  · intro hp
    simp [close, hp]
  · intro h hp v s2 call hget
    have hlt : h < s.counter := hwf h hp
    have hcl : close s = ⟨none, s.counter⟩ := by simp [close, hp]
    rw [hcl, get_pool_none] at hget
    by_cases hcfg : ¬ truthy env.DATABASE_URL ∧ ¬ truthy env.POSTGRES_HOST
    · rw [if_pos hcfg] at hget
      exact Except.noConfusion hget
    · rw [if_neg hcfg] at hget
      cases createOk with
      | false =>
        rw [if_neg Bool.false_ne_true] at hget
        exact Except.noConfusion hget
      | true =>
        rw [if_pos rfl] at hget
        simp only [Except.ok.injEq, Prod.mk.injEq] at hget
        refine ⟨?_, hget.2.2.symm⟩
        intro hvh
        rw [← hget.1] at hvh
        omega

/-- Witness for C8: a state holding pool handle 0 after one
construction. -/
theorem close_contract_witness :
    PoolState.WF ⟨some 0, 1⟩ ∧
    (close ⟨some 0, 1⟩).pool = none ∧
    close (close ⟨some 0, 1⟩) = close ⟨some 0, 1⟩ ∧
    ((⟨some 0, 1⟩ : PoolState).pool = none → close ⟨some 0, 1⟩ = ⟨some 0, 1⟩) ∧
    (∀ h, (⟨some 0, 1⟩ : PoolState).pool = some h →
      ∀ v s2 call, get_pool (close ⟨some 0, 1⟩) envUrl true = Except.ok (v, s2, call) →
        v ≠ h ∧ call = some (createPoolCall envUrl)) := by
  have hwf : PoolState.WF ⟨some 0, 1⟩ := by
    intro h hh
    injection hh with e
    show h < 1
    omega
  exact ⟨hwf, close_contract ⟨some 0, 1⟩ envUrl true hwf⟩

/-- Counterexample to claim C9 as stated: a statement matching exactly
one row that has zero columns (e.g. `SELECT FROM t`).  The claim says
the first row is returned as a (here empty) mapping; the code evaluates
`dict(row) if row else None`, a zero-column row is falsy, so `fetchrow`
returns the absent sentinel instead. -/
theorem fetchrow_zero_column_counterexample :
    fetchrow [([] : DBRow)] = none ∧ fetchrow [([] : DBRow)] ≠ some ([] : DBRow) := by
  refine ⟨rfl, ?_⟩
  intro h
  exact Option.noConfusion h

/-- Claim C9 (amended): `fetchrow` returns the absent sentinel — never
an error — when the statement matches zero rows, and returns the first
row as its ordered column-name-to-value mapping whenever that row has at
least one column; a zero-column first row is also mapped to the absent
sentinel (the code tests the row's truthiness, not its presence). -/
theorem fetchrow_contract (rows : List DBRow) :
    (rows = [] → fetchrow rows = none) ∧
    (∀ r rs, rows = r :: rs → r ≠ [] → fetchrow rows = some r) ∧
    (∀ rs, rows = ([] : DBRow) :: rs → fetchrow rows = none) := by
  refine ⟨?_, ?_, ?_⟩
  · intro h
    rw [h]
    rfl
  · intro r rs h hr
    rw [h]
    simp [fetchrow, hr]
  · intro rs h
    rw [h]
    simp [fetchrow]

/-- Witness for C9 (amended): zero rows give the sentinel, a one-column
row comes back as its mapping. -/
theorem fetchrow_contract_witness :
    fetchrow [] = none ∧
    fetchrow [[("id", JVal.n 1)]] = some [("id", JVal.n 1)] := by
  refine ⟨(fetchrow_contract []).1 rfl, ?_⟩
  exact (fetchrow_contract [[("id", JVal.n 1)]]).2.1 [("id", JVal.n 1)] [] rfl
    (fun h => List.noConfusion h)

/-- Claim C10: when `filter_metadata` contains the key `"source"`, both
backend paths pass the source value alone as the single-source filter
and an empty JSON filter object; every other key in `filter_metadata` is
silently discarded. -/
theorem source_key_discards_other_filters (m : Meta) (v : JVal)
    (hsrc : List.lookup "source" m = some v) :
    parseFilterAsyncpg (some m) = (some v, []) ∧
    parseFilterSupabase (some m) = (some v, []) := by
  have hne : m ≠ [] := by
    intro h
    rw [h] at hsrc
    exact Option.noConfusion hsrc
  constructor
  · simp [parseFilterAsyncpg, hne, hsrc]
  · simp [parseFilterSupabase, hne, hsrc]

/-- A `filter_metadata` with a source and one extra key. -/
def metaSourceAndTag : Meta :=
  [("source", JVal.s "docs.example.com"), ("tag", JVal.s "python")]

/-- Witness for C10: the extra `"tag"` key is discarded by both paths. -/
theorem source_key_discards_other_filters_witness :
    List.lookup "source" metaSourceAndTag = some (JVal.s "docs.example.com") ∧
    parseFilterAsyncpg (some metaSourceAndTag) = (some (JVal.s "docs.example.com"), []) ∧
    parseFilterSupabase (some metaSourceAndTag) = (some (JVal.s "docs.example.com"), []) := by
  have h : List.lookup "source" metaSourceAndTag = some (JVal.s "docs.example.com") := by
    rfl
  exact ⟨h, source_key_discards_other_filters metaSourceAndTag (JVal.s "docs.example.com") h⟩

end Archon
